import Mathlib

/-
Verification of the ForecastForge frontend (src/frontend/src/pages/HomePage.js,
which holds both the `HomePage` submission handler and the `ResultsPage`
polling effect).  The submission handler, the polling loop, the progress
expression and the leaderboard rendering are embedded below; the polling loop
is modelled as a step function over the events of the single-threaded JS event
loop (timer callbacks, fetch resolutions, effect cleanup).
-/

namespace Forecasting

/-- Error metrics carried by each model result; HomePage.js lines 151-152 read
`metrics.mape` and `metrics.mae`.  Numeric metric values are modelled as
rationals, used only as ordering keys. -/
structure Metrics where
  mape : ℚ
  mae : ℚ
deriving DecidableEq

/-- One entry of the worker's result payload; HomePage.js line 150 reads
`model_name`. -/
structure ModelResult where
  model_name : String
  metrics : Metrics
deriving DecidableEq

/-- The `status` string of a `GET /api/results/task_id` response body. -/
inductive RemoteStatus
  | pending
  | running
  | success
  | failure
deriving DecidableEq

/-- The `meta` progress object; HomePage.js lines 111-118 read `meta.model`,
`meta.current` and `meta.total`, each of which may be absent. -/
structure Meta where
  model : Option String
  current : Option Nat
  total : Option Nat
deriving DecidableEq

/-- The empty object used as the initial `meta` on HomePage.js line 89. -/
def emptyMeta : Meta := { model := none, current := none, total := none }

/-- A status response body `status / meta / results`; `meta` itself may be
absent (line 111 guards with the optional-chaining access) and `results` is
only present on success (read on line 97). -/
structure StatusResponse where
  status : RemoteStatus
  meta : Option Meta
  results : Option (List ModelResult)
deriving DecidableEq

/-- React state of `ResultsPage` together with the interval handle, as touched
by the polling effect (HomePage.js lines 87-108).  `pending` counts status
fetches dispatched but not yet resolved; `errorLogs` counts `console.error`
calls made by the catch branch. -/
structure PageState where
  intervalActive : Bool
  pending : Nat
  results : Option (List ModelResult)
  taskStatus : StatusResponse
  errorLogs : Nat
deriving DecidableEq

/-- Initial state of a polling session: `results` is null, `taskStatus` is the
object with status PENDING and an empty `meta` (HomePage.js lines 89-90), and
the interval has just been installed (line 93). -/
def initState : PageState :=
  { intervalActive := true
    pending := 0
    results := none
    taskStatus := { status := .pending, meta := some emptyMeta, results := none }
    errorLogs := 0 }

/-- Outcome of one `axios.get` status fetch: a parsed response body, or a
thrown error (network or non-2xx). -/
inductive FetchOutcome
  | ok (data : StatusResponse)
  | err
deriving DecidableEq

/-- Events of one polling session on the single-threaded JS event loop.
`tick` is the interval callback firing: it dispatches one status fetch and
suspends at the `await` (HomePage.js line 95).  `resolve o` is a previously
dispatched fetch completing with outcome `o`, which runs the rest of the
callback.  `unmount` is the effect cleanup `clearInterval(poll)` on line 107,
which is also what view teardown performs. -/
inductive Event
  | tick
  | resolve (o : FetchOutcome)
  | unmount
deriving DecidableEq

/-- Continuation of the interval callback once `await axios.get` has returned
(HomePage.js lines 96-101): if the body's status is SUCCESS, store
`data.results` and clear the interval; otherwise store the whole body as the
new `taskStatus` snapshot. -/
def handleResponse (s : PageState) (data : StatusResponse) : PageState :=
  if data.status = .success then
    { s with results := data.results, intervalActive := false }
  else
    { s with taskStatus := data }

/-- One event of the polling session.  `clearInterval` only stops future timer
callbacks: a `tick` is a no-op once the interval is cleared, but the `resolve`
of a fetch already dispatched still runs the callback continuation
(lines 94-105).  The catch branch (lines 102-105) logs a diagnostic and clears
the interval. -/
def step (s : PageState) : Event → PageState
  | .tick => if s.intervalActive then { s with pending := s.pending + 1 } else s
  | .resolve o =>
      if s.pending = 0 then s
      else
        match o with
        | .ok data => handleResponse { s with pending := s.pending - 1 } data
        | .err =>
            { s with
                pending := s.pending - 1
                errorLogs := s.errorLogs + 1
                intervalActive := false }
  | .unmount => { s with intervalActive := false }

/-- Run a polling session over a sequence of event-loop events. -/
def run (s : PageState) (evs : List Event) : PageState := evs.foldl step s

/-- The polling period passed to `setInterval` on HomePage.js line 106. -/
def pollIntervalMs : Nat := 3000

/-- Firing schedule of a JS interval timer of period `pollIntervalMs`: the
k-th callback runs `pollIntervalMs * (k + 1)` ms after installation, so the
first callback — and hence the first status fetch — happens only after one
full period, never immediately. -/
def tickTimeMs (k : Nat) : Nat := pollIntervalMs * (k + 1)

/-- Whether an event is the resolution of a dispatched fetch. -/
def isResolve : Event → Bool
  | .resolve _ => true
  | _ => false

/-- The JS progress expression of HomePage.js line 112 for a `meta` object
with definite numeric fields: a zero `total` is falsy, so the conditional
yields 0 without dividing. -/
def progressPercent (current total : Nat) : ℚ :=
  if total ≠ 0 then ((current : ℚ) / (total : ℚ)) * 100 else 0

/-- The spec-level `progressFraction` of the rendered bar, recovered from the
percentage width computed on HomePage.js line 112. -/
def progressFraction (current total : Nat) : ℚ :=
  progressPercent current total / 100

/-- HomePage.js line 112 evaluated on a raw `meta` whose fields may be absent:
the result `none` models the JS `NaN` produced by dividing `undefined` by a
truthy total; an absent or zero total short-circuits to 0. -/
def jsProgress (m : Option Meta) : Option ℚ :=
  match m with
  | none => some 0
  | some mm =>
    match mm.total with
    | none => some 0
    | some 0 => some 0
    | some (t + 1) =>
      match mm.current with
      | none => none
      | some c => some (((c : ℚ) / ((t + 1 : Nat) : ℚ)) * 100)

/-- Validation message set when no file is selected (HomePage.js line 27). -/
def noFileMsg : String := "Por favor, selecciona un archivo CSV."

/-- Generic fallback message of the submit catch branch (HomePage.js line 45). -/
def uploadErrorFallback : String := "Ocurrió un error al subir el archivo."

/-- Outcome of the `axios.post` submission call: a 2xx body carrying
`task_id`, or a thrown error whose optional `detail` models
`err.response?.data?.detail` (absent whenever the error carried no response
body or no detail field). -/
inductive PostOutcome
  | ok (task_id : String)
  | err (detail : Option String)
deriving DecidableEq

/-- JS `a || b` for an optional string `a`: both an absent value and the empty
string are falsy and select `b`. -/
def jsOrString (a : Option String) (b : String) : String :=
  match a with
  | some s => if s = "" then b else s
  | none => b

/-- Observable outcome of one `handleSubmit` call. -/
structure SubmitResult where
  error : String
  networkCalls : Nat
  navigatedTo : Option String
deriving DecidableEq

/-- `handleSubmit` (HomePage.js lines 24-49): with no file selected, set the
validation message and return before any network call; otherwise POST the form
once and either navigate to the results route of the returned `task_id`, or
set the error to `err.response?.data?.detail || fallback`. -/
def handleSubmit (file : Option String) (post : PostOutcome) : SubmitResult :=
  match file with
  | none => { error := noFileMsg, networkCalls := 0, navigatedTo := none }
  | some _ =>
    match post with
    | .ok tid =>
        { error := "", networkCalls := 1, navigatedTo := some ("/results/" ++ tid) }
    | .err d =>
        { error := jsOrString d uploadErrorFallback
          networkCalls := 1
          navigatedTo := none }

/-- Ordering of result rows by the `mape` metric. -/
def mapeLe (a b : ModelResult) : Prop := a.metrics.mape ≤ b.metrics.mape

instance : DecidableRel mapeLe := fun a b =>
  inferInstanceAs (Decidable (a.metrics.mape ≤ b.metrics.mape))

instance : IsTotal ModelResult mapeLe :=
  ⟨fun a b => le_total a.metrics.mape b.metrics.mape⟩

instance : IsTrans ModelResult mapeLe :=
  ⟨fun _ _ _ hab hbc => le_trans hab hbc⟩

/-- Modelled from the spec: the `ResultRanking` ordering of the worker's
payload.  The backend code that orders the `results` array of
`GET /api/results` is not part of this repository (the frontend at HomePage.js
lines 145-154 renders the received list verbatim), so the ranking is taken
from the spec's words: a stable sort, ascending by `metrics.mape`, ties broken
by original input order. -/
def rank (xs : List ModelResult) : List ModelResult := List.insertionSort mapeLe xs

/-- Index of the row flagged as best: HomePage.js lines 146-148 highlight and
trophy exactly the row with index 0. -/
def bestRowIndex : Nat := 0

/-- Sample result rows used to instantiate the theorems below. -/
def demoA : ModelResult := { model_name := "A", metrics := { mape := 12, mae := 3 } }

def demoB : ModelResult := { model_name := "B", metrics := { mape := 5, mae := 4 } }

def demoResults : List ModelResult := [demoA, demoB]

def successResponse : StatusResponse :=
  { status := .success, meta := none, results := some demoResults }

def failureResponse : StatusResponse :=
  { status := .failure, meta := some emptyMeta, results := none }

/-- Unfolding of `run` on a cons of events. -/
theorem run_cons (s : PageState) (e : Event) (evs : List Event) :
    run s (e :: evs) = run (step s e) evs := rfl

/-- A state with a cleared interval and no fetch in flight is a fixed point of
every event: nothing can ever change it again. -/
theorem step_stopped (s : PageState) (h1 : s.intervalActive = false)
    (h2 : s.pending = 0) (e : Event) : step s e = s := by
  cases e with
  | tick => simp [step, h1]
  | resolve o => simp [step, h2]
  | unmount =>
      obtain ⟨ia, p, r, ts, el⟩ := s
      simp only at h1
      subst h1
      rfl

/-- `step_stopped` extended to whole event sequences. -/
theorem run_stopped (evs : List Event) (s : PageState) (h1 : s.intervalActive = false)
    (h2 : s.pending = 0) : run s evs = s := by
  induction evs with
  | nil => rfl
  | cons e tl ih => rw [run_cons, step_stopped s h1 h2 e]; exact ih

/-- Once the interval is cleared it stays cleared, and no step dispatches a new
fetch: `pending` can only shrink. -/
theorem step_inactive (s : PageState) (h : s.intervalActive = false) (e : Event) :
    (step s e).intervalActive = false ∧ (step s e).pending ≤ s.pending := by
  cases e with
  | tick => simp [step, h]
  | resolve o =>
      by_cases hp : s.pending = 0
      · simp [step, hp, h]
      · cases o with
        | ok data =>
            simp only [step, if_neg hp, handleResponse]
            split
            · exact ⟨rfl, Nat.sub_le _ _⟩
            · exact ⟨h, Nat.sub_le _ _⟩
        | err => simp [step, hp]
  | unmount => simp [step]

/-- `step_inactive` extended to whole event sequences. -/
theorem run_inactive (evs : List Event) (s : PageState) (h : s.intervalActive = false) :
    (run s evs).intervalActive = false ∧ (run s evs).pending ≤ s.pending := by
  induction evs generalizing s with
  | nil => exact ⟨h, Nat.le_refl _⟩
  | cons e tl ih =>
      have hs := step_inactive s h e
      rw [run_cons]
      exact ⟨(ih _ hs.1).1, Nat.le_trans (ih _ hs.1).2 hs.2⟩

/-- Events other than a fetch resolution touch neither the status snapshot nor
the stored results. -/
theorem step_no_resolve (s : PageState) (e : Event) (h : isResolve e = false) :
    (step s e).taskStatus = s.taskStatus ∧ (step s e).results = s.results := by
  cases e with
  | tick =>
      simp only [step]
      split <;> exact ⟨rfl, rfl⟩
  | resolve o => simp [isResolve] at h
  | unmount => exact ⟨rfl, rfl⟩

/-- `step_no_resolve` extended to whole event sequences. -/
theorem run_no_resolve (evs : List Event) (s : PageState)
    (h : ∀ e ∈ evs, isResolve e = false) :
    (run s evs).taskStatus = s.taskStatus ∧ (run s evs).results = s.results := by
  induction evs generalizing s with
  | nil => exact ⟨rfl, rfl⟩
  | cons e tl ih =>
      have h1 := step_no_resolve s e (h e (List.mem_cons_self e tl))
      have h2 := ih (step s e) (fun x hx => h x (List.mem_cons_of_mem e hx))
      rw [run_cons]
      exact ⟨h2.1.trans h1.1, h2.2.trans h1.2⟩

/-- While the interval is active, every tick dispatches one more fetch, no
matter how many are already pending. -/
theorem run_replicate_tick_pending (n : Nat) (s : PageState)
    (h : s.intervalActive = true) :
    (run s (List.replicate n .tick)).pending = s.pending + n ∧
      (run s (List.replicate n .tick)).intervalActive = true := by
  induction n generalizing s with
  | zero => exact ⟨rfl, h⟩
  | succ n ih =>
      rw [List.replicate_succ, run_cons]
      have hstep : step s .tick = { s with pending := s.pending + 1 } := by
        simp [step, h]
      rw [hstep]
      have hrec := ih { s with pending := s.pending + 1 } h
      refine ⟨?_, hrec.2⟩
      rw [hrec.1]
      show s.pending + 1 + n = s.pending + (n + 1)
      omega

/-- Stability of the spec-modelled ranking: filtering the ranked list down to
any single `mape` value returns those rows in their original input order. -/
theorem rank_filter_eq (xs : List ModelResult) (q : ℚ) :
    (rank xs).filter (fun r => decide (r.metrics.mape = q)) =
      xs.filter (fun r => decide (r.metrics.mape = q)) := by
  set p : ModelResult → Bool := fun r => decide (r.metrics.mape = q) with hp
  have hsub : (xs.filter p).Sublist xs := List.filter_sublist xs
  have hpw : (xs.filter p).Pairwise mapeLe := by
    rw [List.pairwise_iff_forall_sublist]
    intro a b hab
    have ha : a ∈ xs.filter p := hab.subset (by simp)
    have hb : b ∈ xs.filter p := hab.subset (by simp)
    have ha2 : a.metrics.mape = q := by
      have := List.of_mem_filter ha
      simpa [hp] using this
    have hb2 : b.metrics.mape = q := by
      have := List.of_mem_filter hb
      simpa [hp] using this
    show a.metrics.mape ≤ b.metrics.mape
    rw [ha2, hb2]
  have hsort : (xs.filter p).Sublist (rank xs) := List.sublist_insertionSort hpw hsub
  have hall : ∀ a ∈ xs.filter p, p a = true := fun a ha => List.of_mem_filter ha
  have hfix : (xs.filter p).filter p = xs.filter p := List.filter_eq_self.mpr hall
  have hsub2 : (xs.filter p).Sublist ((rank xs).filter p) := by
    have := List.Sublist.filter p hsort
    rwa [hfix] at this
  have hlen : ((xs.filter p)).length = ((rank xs).filter p).length :=
    (((List.perm_insertionSort mapeLe xs).filter p).length_eq).symm
  exact (hsub2.eq_of_length hlen).symm

/-- Claim C1: for every list of model results delivered in a success payload,
the surfaced ranking has the same length and the same multiset of elements as
the input, is sorted non-decreasing by `metrics.mape` with ties kept in
original input order, and the element at the row flagged best (index 0) has a
minimal `mape`. -/
theorem rank_spec (xs : List ModelResult) :
    (rank xs).length = xs.length ∧
    (rank xs).Perm xs ∧
    (rank xs).Sorted mapeLe ∧
    (∀ q : ℚ, (rank xs).filter (fun r => decide (r.metrics.mape = q)) =
        xs.filter (fun r => decide (r.metrics.mape = q))) ∧
    (∀ a : ModelResult, (rank xs)[bestRowIndex]? = some a →
      ∀ y ∈ rank xs, a.metrics.mape ≤ y.metrics.mape) := by
  refine ⟨(List.perm_insertionSort mapeLe xs).length_eq, List.perm_insertionSort mapeLe xs,
    List.sorted_insertionSort mapeLe xs, fun q => rank_filter_eq xs q, ?_⟩
  intro a ha y hy
  have hs : (rank xs).Sorted mapeLe := List.sorted_insertionSort mapeLe xs
  cases hrk : rank xs with
  | nil => rw [hrk] at ha; simp [bestRowIndex] at ha
  | cons b t =>
      rw [hrk] at ha hy hs
      have hab : b = a := by simpa [bestRowIndex] using ha
      subst hab
      rcases List.mem_cons.mp hy with h | h
      · subst h; exact le_refl _
      · exact (List.sorted_cons.mp hs).1 y h

/-- Concrete instance of `rank_spec` on the two sample rows: filtering the
ranked list at mape 5 preserves input order, and the best-flagged row (the
ranked head, `demoB`) has mape below that of `demoA`. -/
theorem rank_spec_witness :
    (rank demoResults).filter (fun r => decide (r.metrics.mape = 5)) =
      demoResults.filter (fun r => decide (r.metrics.mape = 5)) ∧
    demoB.metrics.mape ≤ demoA.metrics.mape := by
  refine ⟨(rank_spec demoResults).2.2.2.1 5, ?_⟩
  exact (rank_spec demoResults).2.2.2.2 demoB (by decide) demoA (by decide)

/-- Claim C2 counterexample: a fetch resolving with a body whose status is
FAILURE leaves the interval active and the results unset — the poller treats
the Failed terminal status as an ordinary update and keeps polling, so the
claim that any terminal status stops the poller is false on this code. -/
theorem failure_not_terminal_cex :
    (run initState [Event.tick,
        Event.resolve (FetchOutcome.ok failureResponse)]).intervalActive = true ∧
    (run initState [Event.tick,
        Event.resolve (FetchOutcome.ok failureResponse)]).taskStatus = failureResponse ∧
    (run initState [Event.tick,
        Event.resolve (FetchOutcome.ok failureResponse)]).results = none := by
  exact ⟨rfl, rfl, rfl⟩

/-- Claim C2 (amended): resolving a fetch with a SUCCESS body stores the
results and clears the interval, so polling stops; resolving with any other
body — including the FAILURE terminal status — merely replaces the status
snapshot and leaves the interval running; a thrown fetch error clears the
interval and logs a diagnostic. -/
theorem resolve_terminal_spec (s : PageState) (data : StatusResponse)
    (hp : s.pending ≠ 0) :
    (data.status = .success →
      step s (.resolve (.ok data)) =
        { s with
            pending := s.pending - 1
            results := data.results
            intervalActive := false }) ∧
    (data.status ≠ .success →
      step s (.resolve (.ok data)) =
        { s with pending := s.pending - 1, taskStatus := data }) ∧
    step s (.resolve .err) =
      { s with
          pending := s.pending - 1
          errorLogs := s.errorLogs + 1
          intervalActive := false } := by
  refine ⟨fun hstat => ?_, fun hstat => ?_, ?_⟩
  · simp [step, hp, handleResponse, hstat]
  · simp [step, hp, handleResponse, hstat]
  · simp [step, hp]

/-- Concrete instance of `resolve_terminal_spec`: with one fetch in flight, a
SUCCESS body stops the interval and stores the demo results. -/
theorem resolve_terminal_spec_witness :
    step { initState with pending := 1 } (.resolve (.ok successResponse)) =
      { { initState with pending := 1 } with
          pending := 1 - 1
          results := successResponse.results
          intervalActive := false } :=
  (resolve_terminal_spec { initState with pending := 1 } successResponse (by decide)).1 rfl

/-- Claim C3 counterexample: a fetch dispatched before the cleanup ran still
applies its result after `clearInterval` — the trace tick, unmount, resolve
ends with the SUCCESS payload written into `results`, even though nothing was
stored at the moment of the unmount.  The claim that no result is applied to
shared state after stop is therefore false on this code. -/
theorem stale_write_after_stop_cex :
    (run initState [Event.tick, Event.unmount]).results = none ∧
    (run initState [Event.tick, Event.unmount,
        Event.resolve (FetchOutcome.ok successResponse)]).results = some demoResults := by
  exact ⟨rfl, rfl⟩

/-- Claim C3 (amended): after `clearInterval` the interval stays cleared and no
new fetch is ever dispatched (`pending` never grows), but the continuation of a
fetch already in flight still runs on arrival and applies its result — a
SUCCESS body still overwrites `results`. -/
theorem stop_semantics (s : PageState) (evs : List Event) (data : StatusResponse)
    (hstop : s.intervalActive = false) :
    (run s evs).intervalActive = false ∧
    (run s evs).pending ≤ s.pending ∧
    (s.pending ≠ 0 → data.status = .success →
      (step s (.resolve (.ok data))).results = data.results) := by
  refine ⟨(run_inactive evs s hstop).1, (run_inactive evs s hstop).2, ?_⟩
  intro hp hstat
  simp [step, hp, handleResponse, hstat]

/-- Concrete instance of `stop_semantics` on the state reached by one tick and
the cleanup, with one fetch still in flight. -/
theorem stop_semantics_witness :
    (run (run initState [Event.tick, Event.unmount]) [Event.tick]).intervalActive = false ∧
    (run (run initState [Event.tick, Event.unmount]) [Event.tick]).pending ≤
      (run initState [Event.tick, Event.unmount]).pending ∧
    (step (run initState [Event.tick, Event.unmount])
        (Event.resolve (FetchOutcome.ok successResponse))).results =
      successResponse.results := by
  have h := stop_semantics (run initState [Event.tick, Event.unmount]) [Event.tick]
      successResponse rfl
  exact ⟨h.1, h.2.1, h.2.2 (by decide) rfl⟩

/-- Claim C4 counterexample: with two overlapping fetches in flight, the later
one resolves as a transport error — the interval is cleared and a diagnostic
logged — yet the earlier fetch then resolves with SUCCESS and the session
still reaches the succeeded state.  The claim that a failed status query means
no Succeeded state is ever reached is therefore false on this code. -/
theorem poll_error_then_success_cex :
    (run initState [Event.tick, Event.tick, Event.resolve FetchOutcome.err,
        Event.resolve (FetchOutcome.ok successResponse)]).errorLogs = 1 ∧
    (run initState [Event.tick, Event.tick, Event.resolve FetchOutcome.err,
        Event.resolve (FetchOutcome.ok successResponse)]).results = some demoResults := by
  exact ⟨rfl, rfl⟩

/-- Claim C4 (amended): when the only in-flight status fetch resolves as a
transport error, a diagnostic is logged, the interval is cleared, no result is
stored by that resolution, and the session state never changes again — no
fetch is retried and no succeeded state is ever reached. -/
theorem poll_error_stops (s : PageState) (evs : List Event)
    (hp : s.pending = 1) :
    (step s (.resolve .err)).intervalActive = false ∧
    (step s (.resolve .err)).errorLogs = s.errorLogs + 1 ∧
    (step s (.resolve .err)).results = s.results ∧
    run (step s (.resolve .err)) evs = step s (.resolve .err) := by
  have hstep : step s (.resolve .err) =
      { s with pending := 0, errorLogs := s.errorLogs + 1, intervalActive := false } := by
    simp [step, hp]
  rw [hstep]
  exact ⟨rfl, rfl, rfl, run_stopped evs _ rfl rfl⟩

/-- Concrete instance of `poll_error_stops`: after one tick the single fetch
errors out; a later tick and even a SUCCESS resolution leave the stopped state
untouched. -/
theorem poll_error_stops_witness :
    (step (run initState [Event.tick]) (Event.resolve FetchOutcome.err)).intervalActive
        = false ∧
    (step (run initState [Event.tick]) (Event.resolve FetchOutcome.err)).errorLogs =
      (run initState [Event.tick]).errorLogs + 1 ∧
    (step (run initState [Event.tick]) (Event.resolve FetchOutcome.err)).results =
      (run initState [Event.tick]).results ∧
    run (step (run initState [Event.tick]) (Event.resolve FetchOutcome.err))
        [Event.tick, Event.resolve (FetchOutcome.ok successResponse)] =
      step (run initState [Event.tick]) (Event.resolve FetchOutcome.err) :=
  poll_error_stops (run initState [Event.tick])
    [Event.tick, Event.resolve (FetchOutcome.ok successResponse)] (by decide)

/-- Claim C5 counterexample: with currentIndex 5 and totalSteps 2 the rendered
progress fraction is 5/2, which exceeds 1 — the code never clamps the ratio. -/
theorem progress_not_clamped_cex :
    progressFraction 5 2 = 5 / 2 ∧ ¬ progressFraction 5 2 ≤ 1 := by
  constructor
  · norm_num [progressFraction, progressPercent]
  · norm_num [progressFraction, progressPercent]

/-- Claim C5 (amended): the progress fraction equals currentIndex / totalSteps
when totalSteps is nonzero and 0 when it is zero; it is always nonnegative and
is at most 1 whenever currentIndex ≤ totalSteps, but it is not clamped: it
strictly exceeds 1 whenever currentIndex exceeds a nonzero totalSteps. -/
theorem progressFraction_spec (c t : Nat) :
    (t ≠ 0 → progressFraction c t = (c : ℚ) / (t : ℚ)) ∧
    progressFraction c 0 = 0 ∧
    0 ≤ progressFraction c t ∧
    (c ≤ t → progressFraction c t ≤ 1) ∧
    (t ≠ 0 → t < c → 1 < progressFraction c t) := by
  have hval : ∀ ht : t ≠ 0, progressFraction c t = (c : ℚ) / (t : ℚ) := by
    intro ht
    simp only [progressFraction, progressPercent, if_pos ht]
    ring
  have hzero : progressFraction c 0 = 0 := by
    simp [progressFraction, progressPercent]
  refine ⟨hval, hzero, ?_, ?_, ?_⟩
  · by_cases ht : t = 0
    · subst ht; rw [hzero]
    · rw [hval ht]
      positivity
  · intro hle
    by_cases ht : t = 0
    · subst ht; rw [hzero]; norm_num
    · rw [hval ht]
      have htpos : (0 : ℚ) < (t : ℚ) := by
        exact_mod_cast Nat.pos_of_ne_zero ht
      rw [div_le_one htpos]
      exact_mod_cast hle
  · intro ht hlt
    rw [hval ht]
    have htpos : (0 : ℚ) < (t : ℚ) := by
      exact_mod_cast Nat.pos_of_ne_zero ht
    rw [lt_div_iff₀ htpos, one_mul]
    exact_mod_cast hlt

/-- Concrete instances of `progressFraction_spec`: 1 of 2 steps is the
fraction 1/2 and stays at most 1, while 5 of 2 steps exceeds 1. -/
theorem progressFraction_spec_witness :
    progressFraction 1 2 = (1 : ℚ) / 2 ∧
    progressFraction 1 2 ≤ 1 ∧
    1 < progressFraction 5 2 :=
  ⟨(progressFraction_spec 1 2).1 (by decide),
   (progressFraction_spec 1 2).2.2.2.1 (by decide),
   (progressFraction_spec 5 2).2.2.2.2 (by decide) (by decide)⟩

/-- Claim C6: a zero totalSteps short-circuits the JS truthiness test, so the
progress fraction is exactly 0 and no division is evaluated. -/
theorem progressFraction_zero_total (c : Nat) : progressFraction c 0 = 0 := by
  simp [progressFraction, progressPercent]

/-- Concrete instance of `progressFraction_zero_total` at currentIndex 7. -/
theorem progressFraction_zero_total_witness : progressFraction 7 0 = 0 :=
  progressFraction_zero_total 7

/-- Claim C7: when `handleSubmit` runs with no file selected, the validation
message is set locally and the handler returns before the POST — zero network
calls and no navigation — whatever the network would have answered. -/
theorem submit_no_file (post : PostOutcome) :
    (handleSubmit none post).error = noFileMsg ∧
    (handleSubmit none post).networkCalls = 0 ∧
    (handleSubmit none post).navigatedTo = none ∧
    noFileMsg ≠ "" :=
  ⟨rfl, rfl, rfl, by decide⟩

/-- Concrete instance of `submit_no_file` against an erroring network. -/
theorem submit_no_file_witness :
    (handleSubmit none (PostOutcome.err none)).error = noFileMsg ∧
    (handleSubmit none (PostOutcome.err none)).networkCalls = 0 ∧
    (handleSubmit none (PostOutcome.err none)).navigatedTo = none ∧
    noFileMsg ≠ "" :=
  submit_no_file (PostOutcome.err none)

/-- Claim C8 counterexample: a failed submission whose error body carries a
present but empty `detail` field surfaces the generic fallback, not the detail
string — JS truthiness, not presence, selects the message. -/
theorem submit_error_empty_detail_cex :
    (handleSubmit (some "data.csv") (PostOutcome.err (some ""))).error =
      uploadErrorFallback ∧
    (handleSubmit (some "data.csv") (PostOutcome.err (some ""))).error ≠ "" :=
  ⟨rfl, by decide⟩

/-- Claim C8 (amended): on a failed submission the surfaced message is the
remote `detail` whenever that field is present and non-empty, and the generic
fallback when the field is absent or empty. -/
theorem submit_error_detail_spec (f d : String) (hd : d ≠ "") :
    (handleSubmit (some f) (PostOutcome.err (some d))).error = d ∧
    (handleSubmit (some f) (PostOutcome.err none)).error = uploadErrorFallback ∧
    (handleSubmit (some f) (PostOutcome.err (some ""))).error = uploadErrorFallback := by
  refine ⟨?_, rfl, rfl⟩
  simp [handleSubmit, jsOrString, hd]

/-- Concrete instance of `submit_error_detail_spec` with a non-empty detail. -/
theorem submit_error_detail_spec_witness :
    (handleSubmit (some "data.csv") (PostOutcome.err (some "bad file"))).error =
      "bad file" ∧
    (handleSubmit (some "data.csv") (PostOutcome.err none)).error =
      uploadErrorFallback ∧
    (handleSubmit (some "data.csv") (PostOutcome.err (some ""))).error =
      uploadErrorFallback :=
  submit_error_detail_spec "data.csv" "bad file" (by decide)

/-- Claim C9 counterexample: two interval ticks with no resolution in between
leave two fetches in flight — `setInterval` does not await its async callback,
so the claim that at most one fetch is in flight at any time is false on this
code. -/
theorem overlapping_fetches_cex :
    (run initState [Event.tick, Event.tick]).pending = 2 ∧
    ¬ (run initState [Event.tick, Event.tick]).pending ≤ 1 :=
  ⟨rfl, by decide⟩

/-- Claim C9 (amended): while the interval is active every tick dispatches one
more fetch regardless of how many are still pending, so after n consecutive
ticks with a slow network n fetches are in flight — the backlog is unbounded. -/
theorem ticks_ignore_pending (n : Nat) :
    (run initState (List.replicate n Event.tick)).pending = n := by
  have h := (run_replicate_tick_pending n initState rfl).1
  simpa [initState] using h

/-- Concrete instance of `ticks_ignore_pending` at three ticks. -/
theorem ticks_ignore_pending_witness :
    (run initState (List.replicate 3 Event.tick)).pending = 3 :=
  ticks_ignore_pending 3

/-- Claim C10: the first interval callback — hence the first status fetch —
fires only one full 3000 ms period after polling starts; and until some fetch
resolves, the held snapshot is exactly the PENDING status with an empty meta,
no results are stored, and the rendered progress is 0. -/
theorem initial_poll_state (evs : List Event)
    (h : ∀ e ∈ evs, isResolve e = false) :
    tickTimeMs 0 = pollIntervalMs ∧
    pollIntervalMs = 3000 ∧
    initState.taskStatus =
      { status := RemoteStatus.pending, meta := some emptyMeta, results := none } ∧
    jsProgress initState.taskStatus.meta = some 0 ∧
    (run initState evs).taskStatus = initState.taskStatus ∧
    (run initState evs).results = none :=
  ⟨rfl, rfl, rfl, rfl, (run_no_resolve evs initState h).1,
    (run_no_resolve evs initState h).2⟩

/-- Concrete instance of `initial_poll_state` over a tick and the cleanup:
without any resolution the snapshot and results are untouched. -/
theorem initial_poll_state_witness :
    tickTimeMs 0 = pollIntervalMs ∧
    pollIntervalMs = 3000 ∧
    initState.taskStatus =
      { status := RemoteStatus.pending, meta := some emptyMeta, results := none } ∧
    jsProgress initState.taskStatus.meta = some 0 ∧
    (run initState [Event.tick, Event.unmount]).taskStatus = initState.taskStatus ∧
    (run initState [Event.tick, Event.unmount]).results = none :=
  initial_poll_state [Event.tick, Event.unmount] (by decide)

end Forecasting
